import Mathlib

/-!
Verification of the image-utils repository: a shallow embedding of
`src/create_tiles.py` (tile extraction engine), `src/create_pairings.py`
(degradation pipeline) and their filesystem side effects, with theorems
settling the specification's claims about them.

Randomness is modelled by oracles: `draws : ℕ → ℚ` supplies the successive
`random.uniform(scale_min, scale_max)` values, and explicit integer
parameters supply the `random.randint` draws.  Machine floats in the source
are modelled by rationals; Python `int()` is truncation toward zero.
-/

namespace ImageUtils

/-- Python `int()` applied to a real value: truncation toward zero.
Both `create_tiles.py` (lines 39-40) and `create_pairings.py` (lines
230-231) compute scaled dimensions as `int(dim * scale)`. -/
def pyInt (q : ℚ) : ℤ := if 0 ≤ q then ⌊q⌋ else ⌈q⌉

/-- Python `random.randint lo hi`: returns the uniform draw (supplied by the
oracle argument `draw`) when the range `[lo, hi]` is nonempty, and raises
`ValueError` (modelled as `none`) when `hi < lo`. -/
def randint (lo hi draw : ℤ) : Option ℤ := if hi < lo then none else some draw

/-- A rectangular crop emitted by `create_tiles.process_image`:
`img.crop((left, top, left + output_width, top + output_height))`. -/
structure Tile where
  left : ℕ
  top : ℕ
  width : ℕ
  height : ℕ
deriving DecidableEq, Repr

/-- Pixel `(x, y)` lies inside tile `t`. -/
def Tile.contains (t : Tile) (x y : ℕ) : Prop :=
  t.left ≤ x ∧ x < t.left + t.width ∧ t.top ≤ y ∧ y < t.top + t.height

instance (t : Tile) (x y : ℕ) : Decidable (t.contains x y) := by
  unfold Tile.contains; infer_instance

/-- Configuration of `create_tiles.process_image` (its keyword parameters). -/
structure TileConfig where
  scale_min : ℚ
  scale_max : ℚ
  output_width : ℕ
  output_height : ℕ
  max_retries : ℕ
deriving DecidableEq, Repr

/-- The terminal outcome of one run of `create_tiles.process_image` on a
single image file:
* `preReject`: the original image is smaller than the tile size
  (lines 32-33, silent `return`);
* `searchFailure`: the retry loop exhausted `max_retries` without a valid
  scale (lines 45-49, prints a failure message, `return`);
* `gridEmit`: the grid branch saved one crop per grid cell (lines 57-71);
* `fallbackEmit`: the fallback branch saved a single random crop
  (lines 72-83);
* `runtimeError`: an uncaught Python exception (`ValueError` from `randint`
  on an empty range, or `ZeroDivisionError` from `// 0`). -/
inductive TileOutcome where
  | preReject : TileOutcome
  | searchFailure : TileOutcome
  | gridEmit : List Tile → TileOutcome
  | fallbackEmit : Tile → TileOutcome
  | runtimeError : TileOutcome
deriving DecidableEq, Repr

/-- The crops an outcome saves to disk. -/
def TileOutcome.tiles : TileOutcome → List Tile
  | .gridEmit ts => ts
  | .fallbackEmit t => [t]
  | _ => []

/-- Whether the outcome prints the `Failed to find a valid scale factor`
message (line 46); the pre-filter reject at line 33 prints nothing. -/
def TileOutcome.reportsFailure : TileOutcome → Bool
  | .searchFailure => true
  | _ => false

def TileOutcome.isPreReject : TileOutcome → Bool
  | .preReject => true
  | _ => false

def TileOutcome.isSearchFailure : TileOutcome → Bool
  | .searchFailure => true
  | _ => false

def TileOutcome.isGridEmit : TileOutcome → Bool
  | .gridEmit _ => true
  | _ => false

def TileOutcome.isFallbackEmit : TileOutcome → Bool
  | .fallbackEmit _ => true
  | _ => false

/-- Acceptance test of the scale-search loop (line 41):
`scaled_width >= output_width and scaled_height >= output_height`, where
`scaled_width = int(img.width * scale_factor)` and likewise for the height
(lines 39-40). -/
def valid_scale (w h ow oh : ℕ) (f : ℚ) : Bool :=
  decide ((ow : ℤ) ≤ pyInt ((w : ℚ) * f)) && decide ((oh : ℤ) ≤ pyInt ((h : ℚ) * f))

/-- The retry loop of lines 35-43: starting at draw index `k` with `r`
retries left, return the index of the first draw passing `valid_scale`, or
`none` when the budget runs out. -/
def scale_search (w h ow oh : ℕ) (draws : ℕ → ℚ) : ℕ → ℕ → Option ℕ
  | _, 0 => none
  | k, r + 1 =>
    if valid_scale w h ow oh (draws k) then some k
    else scale_search w h ow oh draws (k + 1) r

/-- The nested loops of lines 59-71: for `i` in `range td` (rows, outer),
for `j` in `range ta` (columns, inner), crop at `(j * ow, i * oh)` with
size `ow × oh`.  The list order is the emission order (row-major). -/
def gridTiles (td ta ow oh : ℕ) : List Tile :=
  (List.range td).flatMap fun i =>
    (List.range ta).map fun j => ⟨j * ow, i * oh, ow, oh⟩

/-- Lines 53-83 of `create_tiles.py`: compute `tiles_across` and
`tiles_down` by integer division, take the grid branch when both are
positive, otherwise attempt the single random fallback crop with
`randint(0, scaled_width - output_width)` / `randint(0, scaled_height -
output_height)`.  `fl`/`ft` are the `randint` oracle draws.  A zero tile
dimension makes `// 0` raise `ZeroDivisionError` in Python. -/
def emit_stage (sw sh ow oh : ℕ) (fl ft : ℤ) : TileOutcome :=
  if ow = 0 ∨ oh = 0 then .runtimeError
  else
    let ta := sw / ow
    let td := sh / oh
    if 0 < ta ∧ 0 < td then .gridEmit (gridTiles td ta ow oh)
    else
      match randint 0 ((sw : ℤ) - (ow : ℤ)) fl, randint 0 ((sh : ℤ) - (oh : ℤ)) ft with
      | some l, some t => .fallbackEmit ⟨l.toNat, t.toNat, ow, oh⟩
      | _, _ => .runtimeError

/-- One run of `create_tiles.process_image` on a single image file of
original size `w × h` (lines 30-83): pre-filter (lines 32-33), scale
search (lines 35-49), rescale (line 51, dimensions `int(dim * factor)`
from the accepted draw), then the emit stage. -/
def process_tiles (w h : ℕ) (cfg : TileConfig) (draws : ℕ → ℚ) (fl ft : ℤ) :
    TileOutcome :=
  if w < cfg.output_width ∨ h < cfg.output_height then .preReject
  else
    match scale_search w h cfg.output_width cfg.output_height draws 0
        cfg.max_retries with
    | none => .searchFailure
    | some k =>
      let f := draws k
      let sw := (pyInt ((w : ℚ) * f)).toNat
      let sh := (pyInt ((h : ℚ) * f)).toNat
      emit_stage sw sh cfg.output_width cfg.output_height fl ft

/-- One image file of a directory batch, with its own randomness oracles
(`random` draws fresh values for every file). -/
structure ImageInput where
  width : ℕ
  height : ℕ
  draws : ℕ → ℚ
  fl : ℤ
  ft : ℤ

/-- The directory branch of lines 85-96: each discovered image file is
processed independently by a recursive call; one file's outcome never
stops the remaining files. -/
def process_dir (cfg : TileConfig) : List ImageInput → List TileOutcome
  | [] => []
  | img :: rest =>
    process_tiles img.width img.height cfg img.draws img.fl img.ft ::
      process_dir cfg rest

/-! ### Structure of the grid-tile list -/

lemma gridTiles_succ (td ta ow oh : ℕ) :
    gridTiles (td + 1) ta ow oh =
      gridTiles td ta ow oh ++
        (List.range ta).map fun j => ⟨j * ow, td * oh, ow, oh⟩ := by
  simp [gridTiles, List.range_succ]

lemma gridTiles_length (td ta ow oh : ℕ) :
    (gridTiles td ta ow oh).length = td * ta := by
  induction td with
  | zero => simp [gridTiles]
  | succ n ih => rw [gridTiles_succ]; simp [ih, Nat.succ_mul]

lemma mem_gridTiles {td ta ow oh : ℕ} {t : Tile} :
    t ∈ gridTiles td ta ow oh ↔
      ∃ i, i < td ∧ ∃ j, j < ta ∧ t = ⟨j * ow, i * oh, ow, oh⟩ := by
  simp only [gridTiles, List.mem_flatMap, List.mem_map, List.mem_range]
  constructor
  · rintro ⟨i, hi, j, hj, rfl⟩
    exact ⟨i, hi, j, hj, rfl⟩
  · rintro ⟨i, hi, j, hj, rfl⟩
    exact ⟨i, hi, j, hj, rfl⟩

lemma gridTiles_getElem? (td ta ow oh : ℕ) (hta : 0 < ta) (k : ℕ)
    (hk : k < td * ta) :
    (gridTiles td ta ow oh)[k]? =
      some ⟨(k % ta) * ow, (k / ta) * oh, ow, oh⟩ := by
  induction td with
  | zero => omega
  | succ n ih =>
    rw [Nat.succ_mul] at hk
    rw [gridTiles_succ]
    rcases lt_or_ge k (n * ta) with h | h
    · rw [List.getElem?_append_left (by rw [gridTiles_length]; exact h)]
      exact ih h
    · have hlen : (gridTiles n ta ow oh).length ≤ k := by
        rw [gridTiles_length]; exact h
      rw [List.getElem?_append_right hlen, gridTiles_length]
      have hj : k - n * ta < ta := by omega
      have hmod : k % ta = k - n * ta := by
        have hk2 : k = ta * n + (k - n * ta) := by
          have := Nat.mul_comm ta n; omega
        conv_lhs => rw [hk2]
        rw [Nat.mul_add_mod]
        exact Nat.mod_eq_of_lt hj
      have hdiv : k / ta = n := by
        have hk3 : k = (k - n * ta) + n * ta := by omega
        conv_lhs => rw [hk3]
        rw [Nat.add_mul_div_right _ _ hta, Nat.div_eq_of_lt hj]
        omega
      rw [List.getElem?_map, List.getElem?_range hj]
      simp [hmod, hdiv]

/-- Every pixel of the covered sub-rectangle lies in exactly one grid tile:
no gaps and no overlap. -/
lemma gridTiles_cover (td ta ow oh : ℕ) (how : 0 < ow) (hoh : 0 < oh)
    (x y : ℕ) (hx : x < ta * ow) (hy : y < td * oh) :
    ∃! t, t ∈ gridTiles td ta ow oh ∧ t.contains x y := by
  have hxd : x / ow < ta := (Nat.div_lt_iff_lt_mul how).mpr hx
  have hyd : y / oh < td := (Nat.div_lt_iff_lt_mul hoh).mpr hy
  have hxlo : x / ow * ow ≤ x := Nat.div_mul_le_self x ow
  have hylo : y / oh * oh ≤ y := Nat.div_mul_le_self y oh
  have hxhi : x < x / ow * ow + ow := by
    have h1 := Nat.div_add_mod x ow
    have h2 := Nat.mod_lt x how
    have h3 := Nat.mul_comm ow (x / ow)
    omega
  have hyhi : y < y / oh * oh + oh := by
    have h1 := Nat.div_add_mod y oh
    have h2 := Nat.mod_lt y hoh
    have h3 := Nat.mul_comm oh (y / oh)
    omega
  refine ⟨⟨x / ow * ow, y / oh * oh, ow, oh⟩, ⟨?_, hxlo, hxhi, hylo, hyhi⟩, ?_⟩
  · exact mem_gridTiles.mpr ⟨y / oh, hyd, x / ow, hxd, rfl⟩
  · rintro t ⟨hmem, hc⟩
    obtain ⟨i, hi, j, hj, rfl⟩ := mem_gridTiles.mp hmem
    obtain ⟨hcx1, hcx2, hcy1, hcy2⟩ := hc
    have hjx : x / ow = j := by
      refine Nat.div_eq_of_lt_le hcx1 ?_
      simpa [Nat.succ_mul] using hcx2
    have hiy : y / oh = i := by
      refine Nat.div_eq_of_lt_le hcy1 ?_
      simpa [Nat.succ_mul] using hcy2
    simp [hjx, hiy]

/-- Every pixel of a grid tile lies inside the covered sub-rectangle. -/
lemma gridTiles_within {td ta ow oh : ℕ} {t : Tile}
    (hmem : t ∈ gridTiles td ta ow oh) {x y : ℕ} (hc : t.contains x y) :
    x < ta * ow ∧ y < td * oh := by
  obtain ⟨i, hi, j, hj, rfl⟩ := mem_gridTiles.mp hmem
  obtain ⟨hcx1, hcx2, hcy1, hcy2⟩ := hc
  constructor
  · calc x < j * ow + ow := hcx2
      _ = (j + 1) * ow := by rw [Nat.succ_mul]
      _ ≤ ta * ow := Nat.mul_le_mul_right ow hj
  · calc y < i * oh + oh := hcy2
      _ = (i + 1) * oh := by rw [Nat.succ_mul]
      _ ≤ td * oh := Nat.mul_le_mul_right oh hi

/-! ### The emit stage and the scale search -/

lemma emit_stage_grid {sw sh ow oh : ℕ} (how : 0 < ow) (hoh : 0 < oh)
    (hw : ow ≤ sw) (hh : oh ≤ sh) (fl ft : ℤ) :
    emit_stage sw sh ow oh fl ft =
      TileOutcome.gridEmit (gridTiles (sh / oh) (sw / ow) ow oh) := by
  unfold emit_stage
  rw [if_neg (by omega)]
  rw [if_pos ⟨(Nat.one_le_div_iff how).mpr hw, (Nat.one_le_div_iff hoh).mpr hh⟩]

/-- When the rescaled image cannot fit even one grid tile in some axis, the
fallback branch hits `random.randint` on an empty range, which raises
`ValueError`: no crop is produced. -/
lemma emit_stage_error {sw sh ow oh : ℕ} (how : 0 < ow) (hoh : 0 < oh)
    (hz : sw / ow = 0 ∨ sh / oh = 0) (fl ft : ℤ) :
    emit_stage sw sh ow oh fl ft = TileOutcome.runtimeError := by
  have hsmall : sw < ow ∨ sh < oh := by
    rcases hz with hz | hz
    · exact Or.inl ((Nat.div_eq_zero_iff how).mp hz)
    · exact Or.inr ((Nat.div_eq_zero_iff hoh).mp hz)
  unfold emit_stage
  rw [if_neg (by omega)]
  rw [if_neg (by
    rintro ⟨h1, h2⟩
    rcases hz with hz | hz <;> omega)]
  rcases hsmall with hs | hs
  · have : randint 0 ((sw : ℤ) - (ow : ℤ)) fl = none := by
      unfold randint
      rw [if_pos (by omega)]
    rw [this]
  · have h2 : randint 0 ((sh : ℤ) - (oh : ℤ)) ft = none := by
      unfold randint
      rw [if_pos (by omega)]
    rw [h2]
    rcases randint 0 ((sw : ℤ) - (ow : ℤ)) fl with _ | l <;> rfl

/-- The scale-search loop returns the index of the first valid draw inside
its budget: no draw before it is valid, and at most `r` draws are made. -/
lemma scale_search_some_spec (w h ow oh : ℕ) (draws : ℕ → ℚ) :
    ∀ (r k j : ℕ), scale_search w h ow oh draws k r = some j →
      k ≤ j ∧ j < k + r ∧ valid_scale w h ow oh (draws j) = true ∧
        ∀ m, k ≤ m → m < j → valid_scale w h ow oh (draws m) = false := by
  intro r
  induction r with
  | zero => intro k j hj; simp [scale_search] at hj
  | succ n ih =>
    intro k j hj
    unfold scale_search at hj
    by_cases hv : valid_scale w h ow oh (draws k)
    · rw [if_pos hv] at hj
      obtain rfl : k = j := by simpa using hj
      exact ⟨le_refl _, by omega, hv, fun m h1 h2 => by omega⟩
    · rw [if_neg hv] at hj
      obtain ⟨h1, h2, h3, h4⟩ := ih (k + 1) j hj
      refine ⟨by omega, by omega, h3, fun m hm1 hm2 => ?_⟩
      rcases Nat.eq_or_lt_of_le hm1 with rfl | hm1
      · exact Bool.of_not_eq_true hv
      · exact h4 m hm1 hm2

/-- The scale search fails exactly when none of the `r` draws in its budget
is valid. -/
lemma scale_search_none_spec (w h ow oh : ℕ) (draws : ℕ → ℚ) :
    ∀ (r k : ℕ), scale_search w h ow oh draws k r = none ↔
      ∀ m, k ≤ m → m < k + r → valid_scale w h ow oh (draws m) = false := by
  intro r
  induction r with
  | zero => intro k; simp [scale_search]; intro m h1 h2; omega
  | succ n ih =>
    intro k
    unfold scale_search
    by_cases hv : valid_scale w h ow oh (draws k)
    · rw [if_pos hv]
      constructor
      · intro hnone
        exact (Option.some_ne_none k hnone).elim
      · intro hall
        have hk := hall k (le_refl k) (by omega)
        rw [hv] at hk
        exact Bool.noConfusion hk
    · rw [if_neg hv]
      rw [ih (k + 1)]
      constructor
      · intro hall m h1 h2
        rcases Nat.eq_or_lt_of_le h1 with rfl | h1
        · exact Bool.of_not_eq_true hv
        · exact hall m h1 (by omega)
      · intro hall m h1 h2
        exact hall m (by omega) (by omega)

/-! ### Runs of `create_tiles.process_image` -/

lemma valid_scale_bounds {w h ow oh : ℕ} {f : ℚ}
    (hv : valid_scale w h ow oh f = true) :
    ow ≤ (pyInt ((w : ℚ) * f)).toNat ∧ oh ≤ (pyInt ((h : ℚ) * f)).toNat := by
  unfold valid_scale at hv
  rw [Bool.and_eq_true, decide_eq_true_iff, decide_eq_true_iff] at hv
  omega

lemma process_tiles_eq_grid {w h : ℕ} {cfg : TileConfig} {draws : ℕ → ℚ}
    {fl ft : ℤ} {k : ℕ}
    (hpre : ¬(w < cfg.output_width ∨ h < cfg.output_height))
    (how : 0 < cfg.output_width) (hoh : 0 < cfg.output_height)
    (hs : scale_search w h cfg.output_width cfg.output_height draws 0
      cfg.max_retries = some k) :
    process_tiles w h cfg draws fl ft =
      TileOutcome.gridEmit
        (gridTiles ((pyInt ((h : ℚ) * draws k)).toNat / cfg.output_height)
          ((pyInt ((w : ℚ) * draws k)).toNat / cfg.output_width)
          cfg.output_width cfg.output_height) := by
  have hv := (scale_search_some_spec w h cfg.output_width cfg.output_height
    draws cfg.max_retries 0 k hs).2.2.1
  obtain ⟨hw, hh⟩ := valid_scale_bounds hv
  unfold process_tiles
  rw [if_neg hpre, hs]
  exact emit_stage_grid how hoh hw hh fl ft

lemma process_tiles_eq_searchFailure {w h : ℕ} {cfg : TileConfig}
    {draws : ℕ → ℚ} {fl ft : ℤ}
    (hpre : ¬(w < cfg.output_width ∨ h < cfg.output_height))
    (hs : scale_search w h cfg.output_width cfg.output_height draws 0
      cfg.max_retries = none) :
    process_tiles w h cfg draws fl ft = TileOutcome.searchFailure := by
  unfold process_tiles
  rw [if_neg hpre, hs]

end ImageUtils

namespace ImageUtils

/-- **C1**: in the grid branch (`tiles_across ≥ 1` and `tiles_down ≥ 1`
after rescale) the engine emits exactly `tiles_down * tiles_across` crops
in row-major order, the `k`-th at `((k mod ta) * ow, (k div ta) * oh)` of
size `ow × oh`, and these crops exactly partition the
`(ta * ow) × (td * oh)` sub-rectangle: every pixel of it lies in exactly
one crop, and no crop leaves it. -/
theorem claim_C1_grid_partition (sw sh ow oh : ℕ) (fl ft : ℤ)
    (hta : 1 ≤ sw / ow) (htd : 1 ≤ sh / oh) :
    emit_stage sw sh ow oh fl ft =
      TileOutcome.gridEmit (gridTiles (sh / oh) (sw / ow) ow oh) ∧
    (gridTiles (sh / oh) (sw / ow) ow oh).length = (sh / oh) * (sw / ow) ∧
    (∀ k, k < (sh / oh) * (sw / ow) →
      (gridTiles (sh / oh) (sw / ow) ow oh)[k]? =
        some ⟨(k % (sw / ow)) * ow, (k / (sw / ow)) * oh, ow, oh⟩) ∧
    (∀ k, k < (sh / oh) * (sw / ow) →
      ∃ t, (gridTiles (sh / oh) (sw / ow) ow oh)[k]? = some t ∧
        t.width = ow ∧ t.height = oh) ∧
    (∀ x y, x < (sw / ow) * ow → y < (sh / oh) * oh →
      ∃! t, t ∈ gridTiles (sh / oh) (sw / ow) ow oh ∧ t.contains x y) ∧
    (∀ t, t ∈ gridTiles (sh / oh) (sw / ow) ow oh →
      ∀ x y, t.contains x y → x < (sw / ow) * ow ∧ y < (sh / oh) * oh) := by
  have how : 0 < ow := by
    rcases Nat.eq_zero_or_pos ow with rfl | h
    · rw [Nat.div_zero] at hta; omega
    · exact h
  have hoh : 0 < oh := by
    rcases Nat.eq_zero_or_pos oh with rfl | h
    · rw [Nat.div_zero] at htd; omega
    · exact h
  have hw : ow ≤ sw := (Nat.one_le_div_iff how).mp hta
  have hh : oh ≤ sh := (Nat.one_le_div_iff hoh).mp htd
  refine ⟨emit_stage_grid how hoh hw hh fl ft,
    gridTiles_length _ _ _ _,
    fun k hk => gridTiles_getElem? _ _ _ _ hta k hk,
    fun k hk => ⟨_, gridTiles_getElem? _ _ _ _ hta k hk, rfl, rfl⟩,
    fun x y hx hy => gridTiles_cover _ _ _ _ how hoh x y hx hy,
    fun t hmem x y hc => gridTiles_within hmem hc⟩

/-- Witness for C1 at the spec's example: a 1000×1000 rescaled image with
300×300 tiles yields the grid outcome with exactly 9 tiles. -/
theorem claim_C1_grid_partition_witness :
    emit_stage 1000 1000 300 300 0 0 =
      TileOutcome.gridEmit (gridTiles 3 3 300 300) ∧
    (gridTiles 3 3 300 300).length = 9 := by
  have h := claim_C1_grid_partition 1000 1000 300 300 0 0 (by decide) (by decide)
  have h3 : (1000 : ℕ) / 300 = 3 := by decide
  rw [h3] at h
  exact ⟨h.1, h.2.1⟩

/-- **C2 counterexample**: with `scale_min = scale_max = 2`,
`output_width = output_height = 100` and a 40×40 source, the run is a
silent pre-filter reject, not the search failure the claim asserts: the
scale search never runs and no failure message is printed. -/
theorem claim_C2_counterexample :
    process_tiles 40 40 ⟨2, 2, 100, 100, 10⟩ (fun _ => 2) 0 0 =
      TileOutcome.preReject ∧
    TileOutcome.preReject ≠ TileOutcome.searchFailure ∧
    TileOutcome.preReject.reportsFailure = false := by
  refine ⟨by simp [process_tiles], by decide, rfl⟩

/-- **C2 (amended)**: with `scale_min = scale_max = 2`,
`output_width = output_height = 100` and a 40×40 source, every run (any
draws, any retry budget) is rejected by the pre-filter before any scale
draw: no tile is emitted and no failure is reported. -/
theorem claim_C2_prefilter_rejects (draws : ℕ → ℚ) (fl ft : ℤ)
    (retries : ℕ) :
    process_tiles 40 40 ⟨2, 2, 100, 100, retries⟩ draws fl ft =
      TileOutcome.preReject ∧
    (process_tiles 40 40 ⟨2, 2, 100, 100, retries⟩ draws fl ft).tiles = [] ∧
    (process_tiles 40 40 ⟨2, 2, 100, 100, retries⟩ draws fl
      ft).reportsFailure = false := by
  have hmain : process_tiles 40 40 ⟨2, 2, 100, 100, retries⟩ draws fl ft =
      TileOutcome.preReject := by
    unfold process_tiles
    rw [if_pos (Or.inl (by simp))]
  exact ⟨hmain, by rw [hmain]; rfl, by rw [hmain]; rfl⟩

/-- **C6**: an original image smaller than the tile size in either axis is
silently skipped: the outcome is the pre-filter reject, zero tiles, no
failure message, and the run never consults the random draws (the result
is the same for every oracle). -/
theorem claim_C6_prefilter_silent (w h : ℕ) (cfg : TileConfig)
    (draws : ℕ → ℚ) (fl ft : ℤ)
    (hsmall : w < cfg.output_width ∨ h < cfg.output_height) :
    process_tiles w h cfg draws fl ft = TileOutcome.preReject ∧
    (process_tiles w h cfg draws fl ft).tiles = [] ∧
    (process_tiles w h cfg draws fl ft).reportsFailure = false ∧
    ∀ draws2 fl2 ft2, process_tiles w h cfg draws2 fl2 ft2 =
      process_tiles w h cfg draws fl ft := by
  have hmain : ∀ (d : ℕ → ℚ) (a b : ℤ),
      process_tiles w h cfg d a b = TileOutcome.preReject := by
    intro d a b
    unfold process_tiles
    rw [if_pos hsmall]
  refine ⟨hmain draws fl ft, by rw [hmain]; rfl, by rw [hmain]; rfl, ?_⟩
  intro draws2 fl2 ft2
  rw [hmain, hmain]

theorem claim_C6_prefilter_silent_witness :
    ((40 : ℕ) < 100 ∨ (40 : ℕ) < 100) ∧
    process_tiles 40 40 ⟨2, 2, 100, 100, 10⟩ (fun _ => 2) 0 0 =
      TileOutcome.preReject := by
  refine ⟨by omega, ?_⟩
  exact (claim_C6_prefilter_silent 40 40 ⟨2, 2, 100, 100, 10⟩ (fun _ => 2)
    0 0 (Or.inl (by decide))).1

/-- **C5**: with positive tile dimensions, whenever the scale search
accepts a factor, the accepted scaled dimensions give
`tiles_across ≥ 1` and `tiles_down ≥ 1`, so the run takes the grid branch
and the single-crop fallback branch is unreachable. -/
theorem claim_C5_fallback_unreachable (w h : ℕ) (cfg : TileConfig)
    (draws : ℕ → ℚ) (fl ft : ℤ) (k : ℕ)
    (how : 0 < cfg.output_width) (hoh : 0 < cfg.output_height)
    (hw : cfg.output_width ≤ w) (hh : cfg.output_height ≤ h)
    (hs : scale_search w h cfg.output_width cfg.output_height draws 0
      cfg.max_retries = some k) :
    (1 ≤ (pyInt ((w : ℚ) * draws k)).toNat / cfg.output_width ∧
     1 ≤ (pyInt ((h : ℚ) * draws k)).toNat / cfg.output_height) ∧
    (∃ ts, process_tiles w h cfg draws fl ft = TileOutcome.gridEmit ts) ∧
    (process_tiles w h cfg draws fl ft).isFallbackEmit = false := by
  have hv := (scale_search_some_spec w h cfg.output_width cfg.output_height
    draws cfg.max_retries 0 k hs).2.2.1
  obtain ⟨hbw, hbh⟩ := valid_scale_bounds hv
  have hgrid := @process_tiles_eq_grid w h cfg draws fl ft k
    (by omega) how hoh hs
  refine ⟨⟨(Nat.one_le_div_iff how).mpr hbw, (Nat.one_le_div_iff hoh).mpr hbh⟩,
    ⟨_, hgrid⟩, ?_⟩
  rw [hgrid]
  rfl

theorem claim_C5_fallback_unreachable_witness :
    ∃ ts, process_tiles 1000 1000 ⟨1, 1, 300, 300, 5⟩ (fun _ => 1) 0 0 =
      TileOutcome.gridEmit ts := by
  have hs : scale_search 1000 1000 300 300 (fun _ => 1) 0 5 = some 0 := by
    unfold scale_search
    rw [if_pos (by norm_num [valid_scale, pyInt])]
  exact (claim_C5_fallback_unreachable 1000 1000 ⟨1, 1, 300, 300, 5⟩
    (fun _ => 1) 0 0 0 (by norm_num) (by norm_num) (by norm_num)
    (by norm_num) hs).2.1

end ImageUtils

namespace ImageUtils

/-- **C7**: the scale search makes at most `max_retries` draws and stops at
the first valid one; exhausting the budget yields the reported search
failure with no tiles; and in a directory batch a failed file never stops
the remaining files. -/
theorem claim_C7_search_budget :
    (∀ (w h ow oh : ℕ) (draws : ℕ → ℚ) (maxr k : ℕ),
      scale_search w h ow oh draws 0 maxr = some k →
        k < maxr ∧ valid_scale w h ow oh (draws k) = true ∧
          ∀ j, j < k → valid_scale w h ow oh (draws j) = false) ∧
    (∀ (w h ow oh : ℕ) (draws : ℕ → ℚ) (maxr : ℕ),
      scale_search w h ow oh draws 0 maxr = none ↔
        ∀ j, j < maxr → valid_scale w h ow oh (draws j) = false) ∧
    (∀ (w h : ℕ) (cfg : TileConfig) (draws : ℕ → ℚ) (fl ft : ℤ),
      cfg.output_width ≤ w → cfg.output_height ≤ h →
      (∀ j, j < cfg.max_retries →
        valid_scale w h cfg.output_width cfg.output_height (draws j) = false) →
      process_tiles w h cfg draws fl ft = TileOutcome.searchFailure ∧
      (process_tiles w h cfg draws fl ft).tiles = [] ∧
      (process_tiles w h cfg draws fl ft).reportsFailure = true) ∧
    (∀ (cfg : TileConfig) (img : ImageInput) (rest : List ImageInput),
      process_tiles img.width img.height cfg img.draws img.fl img.ft =
        TileOutcome.searchFailure →
      process_dir cfg (img :: rest) =
        TileOutcome.searchFailure :: process_dir cfg rest ∧
      (process_dir cfg (img :: rest)).length =
        (process_dir cfg rest).length + 1) := by
  refine ⟨?_, ?_, ?_, ?_⟩
  · intro w h ow oh draws maxr k hs
    obtain ⟨h1, h2, h3, h4⟩ := scale_search_some_spec w h ow oh draws maxr 0 k hs
    exact ⟨by omega, h3, fun j hj => h4 j (by omega) hj⟩
  · intro w h ow oh draws maxr
    rw [scale_search_none_spec w h ow oh draws maxr 0]
    constructor
    · intro hall j hj
      exact hall j (by omega) (by omega)
    · intro hall m h1 h2
      exact hall m (by omega)
  · intro w h cfg draws fl ft hw hh hall
    have hs : scale_search w h cfg.output_width cfg.output_height draws 0
        cfg.max_retries = none := by
      rw [scale_search_none_spec]
      intro m h1 h2
      exact hall m (by omega)
    have hmain := @process_tiles_eq_searchFailure w h cfg draws fl ft
      (by omega) hs
    exact ⟨hmain, by rw [hmain]; rfl, by rw [hmain]; rfl⟩
  · intro cfg img rest hfail
    have hstep : process_dir cfg (img :: rest) =
        process_tiles img.width img.height cfg img.draws img.fl img.ft ::
          process_dir cfg rest := rfl
    constructor
    · rw [hstep, hfail]
    · rw [hstep]
      simp

theorem claim_C7_search_budget_witness :
    process_tiles 200 200 ⟨0, 0, 100, 100, 3⟩ (fun _ => 0) 0 0 =
      TileOutcome.searchFailure ∧
    (process_tiles 200 200 ⟨0, 0, 100, 100, 3⟩ (fun _ => 0) 0 0).tiles =
      [] := by
  have h := claim_C7_search_budget.2.2.1 200 200 ⟨0, 0, 100, 100, 3⟩
    (fun _ => 0) 0 0 (by decide) (by decide)
    (fun j hj => by norm_num [valid_scale, pyInt])
  exact ⟨h.1, h.2.1⟩

/-- **C8**: with a positive tile size, every single-image run ends in
exactly one of the four terminal outcomes (grid tiles, fallback tile,
pre-filter reject, search failure) — never two, never none, and never an
uncaught exception. -/
theorem claim_C8_exactly_one_outcome (w h : ℕ) (cfg : TileConfig)
    (draws : ℕ → ℚ) (fl ft : ℤ)
    (how : 0 < cfg.output_width) (hoh : 0 < cfg.output_height) :
    (process_tiles w h cfg draws fl ft).isGridEmit.toNat +
      (process_tiles w h cfg draws fl ft).isFallbackEmit.toNat +
      (process_tiles w h cfg draws fl ft).isPreReject.toNat +
      (process_tiles w h cfg draws fl ft).isSearchFailure.toNat = 1 := by
  by_cases hpre : w < cfg.output_width ∨ h < cfg.output_height
  · have hx : process_tiles w h cfg draws fl ft = TileOutcome.preReject := by
      unfold process_tiles
      rw [if_pos hpre]
    rw [hx]
    rfl
  · cases hs : scale_search w h cfg.output_width cfg.output_height draws 0
        cfg.max_retries with
    | none =>
      rw [process_tiles_eq_searchFailure hpre hs]
      rfl
    | some k =>
      rw [process_tiles_eq_grid hpre how hoh hs]
      rfl

theorem claim_C8_exactly_one_outcome_witness :
    (process_tiles 1000 1000 ⟨1, 1, 300, 300, 5⟩ (fun _ => 1) 0
        0).isGridEmit.toNat +
      (process_tiles 1000 1000 ⟨1, 1, 300, 300, 5⟩ (fun _ => 1) 0
        0).isFallbackEmit.toNat +
      (process_tiles 1000 1000 ⟨1, 1, 300, 300, 5⟩ (fun _ => 1) 0
        0).isPreReject.toNat +
      (process_tiles 1000 1000 ⟨1, 1, 300, 300, 5⟩ (fun _ => 1) 0
        0).isSearchFailure.toNat = 1 :=
  claim_C8_exactly_one_outcome 1000 1000 ⟨1, 1, 300, 300, 5⟩ (fun _ => 1)
    0 0 (by decide) (by decide)

/-- **C4 counterexample**: a rescaled 350×250 image with a 300×200 tile
size does not satisfy `tiles_across = 0 ∨ tiles_down = 0` (both quotients
are 1) and is handled by the grid branch, which deterministically emits
the single crop at `(0, 0)` — not a randomly placed fallback crop; and
with a rescaled size where one axis is deficient (350×150) the fallback
branch raises on its empty `randint` range instead of emitting a crop. -/
theorem claim_C4_counterexample :
    (350 : ℕ) / 300 = 1 ∧ (250 : ℕ) / 200 = 1 ∧
    emit_stage 350 250 300 200 0 0 =
      TileOutcome.gridEmit [⟨0, 0, 300, 200⟩] ∧
    (emit_stage 350 250 300 200 0 0).isFallbackEmit = false ∧
    emit_stage 350 150 300 200 0 0 = TileOutcome.runtimeError ∧
    (emit_stage 350 150 300 200 0 0).tiles = [] := by
  refine ⟨by decide, by decide, by decide, by decide, by decide, by decide⟩

/-- **C4 (amended)**: with positive tile dimensions, whenever the rescaled
image cannot fit one full grid tile in some axis (`tiles_across = 0` or
`tiles_down = 0`), the fallback branch's `random.randint` has an empty
range in the deficient axis, so the run raises `ValueError` and emits no
crop at all; a rescaled 350×250 image with a 300×200 tile instead has
`tiles_across = tiles_down = 1` and yields exactly one grid crop of size
300×200 at `(0, 0)`. -/
theorem claim_C4_fallback_raises (sw sh ow oh : ℕ) (fl ft : ℤ)
    (how : 0 < ow) (hoh : 0 < oh)
    (hz : sw / ow = 0 ∨ sh / oh = 0) :
    emit_stage sw sh ow oh fl ft = TileOutcome.runtimeError ∧
    (emit_stage sw sh ow oh fl ft).tiles = [] ∧
    emit_stage 350 250 300 200 fl ft =
      TileOutcome.gridEmit [⟨0, 0, 300, 200⟩] := by
  have herr := emit_stage_error how hoh hz fl ft
  refine ⟨herr, by rw [herr]; rfl, ?_⟩
  have hg := @emit_stage_grid 350 250 300 200
    (by decide) (by decide) (by decide) (by decide) fl ft
  rw [hg]
  decide

theorem claim_C4_fallback_raises_witness :
    emit_stage 100 50 300 200 0 0 = TileOutcome.runtimeError ∧
    (emit_stage 100 50 300 200 0 0).tiles = [] ∧
    emit_stage 350 250 300 200 0 0 =
      TileOutcome.gridEmit [⟨0, 0, 300, 200⟩] :=
  claim_C4_fallback_raises 100 50 300 200 0 0 (by decide) (by decide)
    (Or.inl (by decide))

end ImageUtils

namespace ImageUtils

/-! ## The degradation pipeline: `src/create_pairings.py`

Pixel data is outside the embedding; an image is observed through its
width, height and color mode, which is exactly what the claims about the
pipeline speak about. -/

/-- PIL color modes as far as the pipeline observes them. -/
inductive ColorMode where
  | L : ColorMode
  | LA : ColorMode
  | P : ColorMode
  | RGB : ColorMode
  | RGBA : ColorMode
  | CMYK : ColorMode
deriving DecidableEq, Repr

/-- Modes carrying an alpha channel. -/
def ColorMode.hasAlpha : ColorMode → Bool
  | .LA => true
  | .RGBA => true
  | _ => false

/-- The observable state of an in-memory raster. -/
structure Img where
  width : ℕ
  height : ℕ
  mode : ColorMode
deriving DecidableEq, Repr

/-- The keys of `BLUR_ALGORITHMS` (lines 176-180). -/
inductive BlurType where
  | average : BlurType
  | gaussian : BlurType
  | anisotropic : BlurType
deriving DecidableEq, Repr

/-- `img.resize((w, h), kernel)`: the kernel choice never affects the
output dimensions or mode. -/
def resize (image : Img) (w h : ℕ) : Img := ⟨w, h, image.mode⟩

/-- `img.convert(mode)`. -/
def convert (image : Img) (m : ColorMode) : Img :=
  ⟨image.width, image.height, m⟩

/-- `Image.effect_noise(image.size, intensity)` (line 185): a monochrome
noise raster of the given size; the intensity only affects pixel values. -/
def effect_noise (w h : ℕ) (intensity : ℚ) : Img := ⟨w, h, .L⟩

/-- `Image.blend(image, noise, 0.5)` (line 186): a pixelwise mix whose
size and mode are those of its operands. -/
def blend (a b : Img) (ratio : ℚ) : Img := ⟨a.width, a.height, a.mode⟩

/-- `add_random_noise` (lines 183-187). -/
def add_random_noise (image : Img) (intensity : ℚ) : Img :=
  blend image (effect_noise image.width image.height intensity) (1 / 2)

/-- `apply_random_blur` (lines 190-196): each branch applies a PIL filter
(`GaussianBlur(radius)`, `BLUR` or `SMOOTH`), all of which preserve the
size and mode of the raster. -/
def apply_random_blur (image : Img) (blur_type : BlurType) : Img :=
  match blur_type with
  | .gaussian => image
  | _ => image

inductive ImgFormat where
  | PNG : ImgFormat
  | JPEG : ImgFormat
deriving DecidableEq, Repr

/-- The file written by one run of `create_pairings.process_image`. -/
structure SavedOutput where
  format : ImgFormat
  mode : ColorMode
  width : ℕ
  height : ℕ
  quality : Option ℕ
  filename : String
deriving DecidableEq, Repr

/-- One run of `create_pairings.process_image` on a single image file
(lines 221-266): scale (dimensions `int(dim * scale)`, lines 230-235),
optional blur (lines 239-246), optional noise (lines 249-250), then the
encode stage (lines 253-266): JPEG forces mode RGB and uses the
`random.randint(*jpeg_quality_range)` draw `quality_draw`; PNG keeps the
mode and has no quality parameter. -/
def process_pairings (image : Img) (scale : ℚ) (blur : Bool)
    (blur_type : BlurType) (noise : Bool) (noise_intensity : ℚ)
    (save_as_jpeg : Bool) (quality_draw : ℕ) (stem : String) : SavedOutput :=
  let scaled_width := (pyInt ((image.width : ℚ) * scale)).toNat
  let scaled_height := (pyInt ((image.height : ℚ) * scale)).toNat
  let img := resize image scaled_width scaled_height
  let img := if blur then apply_random_blur img blur_type else img
  let img := if noise then add_random_noise img noise_intensity else img
  if save_as_jpeg then
    let img := if img.mode ≠ ColorMode.RGB then convert img ColorMode.RGB
      else img
    ⟨.JPEG, img.mode, img.width, img.height, some quality_draw,
      stem ++ ".jpg"⟩
  else
    ⟨.PNG, img.mode, img.width, img.height, none, stem ++ ".png"⟩

/-! ## Filesystem side effects

Paths are lists of components; both tools only ever create the output
directory, read the input image, and write output files. -/

inductive FSAction where
  | mkdirAll : List String → FSAction
  | readFile : List String → FSAction
  | writeFile : List String → FSAction
  | deleteFile : List String → FSAction
deriving DecidableEq, Repr

def FSAction.isWrite : FSAction → Bool
  | .writeFile _ => true
  | _ => false

def FSAction.isDelete : FSAction → Bool
  | .deleteFile _ => true
  | _ => false

/-- The filesystem actions of one `create_pairings.process_image` run on
the input file `in_dir/<stem><ext>`: `output_dir.mkdir(parents=True,
exist_ok=True)` (line 213), `Image.open` (line 223), and the single save
to `output_dir / (stem + ".jpg" | ".png")` (lines 258, 264). -/
def pairings_effects (in_dir : List String) (stem ext : String)
    (out_dir : List String) (save_as_jpeg : Bool) : List FSAction :=
  [.mkdirAll out_dir,
   .readFile (in_dir ++ [stem ++ ext]),
   .writeFile (out_dir ++ [stem ++ (if save_as_jpeg then ".jpg" else ".png")])]

/-- The filesystem actions of one `create_tiles.process_image` run:
`mkdir` (line 22), `Image.open` (line 31), then one save per emitted tile
with the timestamped names of lines 67 and 80. -/
def tiles_effects (in_dir : List String) (stem ext : String)
    (out_dir : List String) (outcome : TileOutcome) (timestamp : ℕ) :
    List FSAction :=
  FSAction.mkdirAll out_dir :: FSAction.readFile (in_dir ++ [stem ++ ext]) ::
    match outcome with
    | .gridEmit ts =>
      (List.range ts.length).map fun k =>
        FSAction.writeFile (out_dir ++
          [stem ++ "_" ++ toString timestamp ++ "_" ++ toString k ++ ext])
    | .fallbackEmit _ =>
      [FSAction.writeFile (out_dir ++ [stem ++ "_" ++ toString timestamp ++ ext])]
    | _ => []

end ImageUtils

namespace ImageUtils

lemma pyInt_eq_floor {q : ℚ} (hq : 0 ≤ q) : pyInt q = ⌊q⌋ := by
  unfold pyInt
  rw [if_pos hq]

lemma apply_random_blur_eq (image : Img) (bt : BlurType) :
    apply_random_blur image bt = image := by
  cases bt <;> rfl

/-- **C3 counterexample**: a 3×3 image scaled by 1/2 is resized to 1×1
(Python `int()` truncates 1.5 to 1), while `round(3 · 1/2) = 2`: the
output dimension differs from the claimed `round(w·s)`. -/
theorem claim_C3_counterexample :
    (process_pairings ⟨3, 3, ColorMode.RGB⟩ (1 / 2) false BlurType.average
      false 0 false 90 "a").width = 1 ∧
    round ((3 : ℚ) * (1 / 2)) = 2 ∧
    ((process_pairings ⟨3, 3, ColorMode.RGB⟩ (1 / 2) false BlurType.average
      false 0 false 90 "a").width : ℤ) ≠ round ((3 : ℚ) * (1 / 2)) := by
  have h1 : (process_pairings ⟨3, 3, ColorMode.RGB⟩ (1 / 2) false
      BlurType.average false 0 false 90 "a").width = 1 := by
    norm_num [process_pairings, resize, pyInt]
  have h2 : round ((3 : ℚ) * (1 / 2)) = 2 := by
    norm_num [round_eq]
  refine ⟨h1, h2, ?_⟩
  rw [h1, h2]
  decide

/-- **C3 (amended)**: for every scale factor `s > 0` the degraded image's
dimensions are `⌊w·s⌋ × ⌊h·s⌋` (Python `int()` truncation, not rounding),
and the blur and noise stages never change dimensions. -/
theorem claim_C3_scaled_dimensions (image : Img) (s : ℚ) (blur : Bool)
    (bt : BlurType) (noise : Bool) (ni : ℚ) (sj : Bool) (q : ℕ)
    (stem : String) (hs : 0 < s) :
    (process_pairings image s blur bt noise ni sj q stem).width =
      (⌊(image.width : ℚ) * s⌋).toNat ∧
    (process_pairings image s blur bt noise ni sj q stem).height =
      (⌊(image.height : ℚ) * s⌋).toNat ∧
    (∀ (i : Img) (b : BlurType),
      (apply_random_blur i b).width = i.width ∧
      (apply_random_blur i b).height = i.height) ∧
    (∀ (i : Img) (n : ℚ),
      (add_random_noise i n).width = i.width ∧
      (add_random_noise i n).height = i.height) := by
  have hw : pyInt ((image.width : ℚ) * s) = ⌊(image.width : ℚ) * s⌋ :=
    pyInt_eq_floor (mul_nonneg (Nat.cast_nonneg _) (le_of_lt hs))
  have hh : pyInt ((image.height : ℚ) * s) = ⌊(image.height : ℚ) * s⌋ :=
    pyInt_eq_floor (mul_nonneg (Nat.cast_nonneg _) (le_of_lt hs))
  refine ⟨?_, ?_, fun i b => ⟨by rw [apply_random_blur_eq], by
      rw [apply_random_blur_eq]⟩, fun i n => ⟨rfl, rfl⟩⟩ <;>
    cases blur <;> cases noise <;> cases sj <;>
    simp [process_pairings, resize, apply_random_blur_eq, add_random_noise,
      blend, effect_noise, convert, hw, hh] <;>
    split <;> rfl

theorem claim_C3_scaled_dimensions_witness :
    (0 : ℚ) < 1 / 2 ∧
    (process_pairings ⟨3, 3, ColorMode.RGB⟩ (1 / 2) false BlurType.average
      false 0 false 90 "a").width = (⌊(3 : ℚ) * (1 / 2)⌋).toNat := by
  refine ⟨by norm_num, ?_⟩
  have h := claim_C3_scaled_dimensions ⟨3, 3, ColorMode.RGB⟩ (1 / 2) false
    BlurType.average false 0 false 90 "a" (by norm_num)
  exact h.1

end ImageUtils

namespace ImageUtils

/-- **C9**: with `save_as_jpeg` set, the pipeline forces a non-alpha RGB
mode before encoding and writes a JPEG whose quality is the
`random.randint` draw from `jpeg_quality_range`; without it, the pipeline
writes a PNG with the color mode unchanged, so an alpha channel is kept. -/
theorem claim_C9_format_alpha (image : Img) (s : ℚ) (blur : Bool)
    (bt : BlurType) (noise : Bool) (ni : ℚ) (stem : String) (q ql qh : ℕ)
    (hql : ql ≤ q) (hqh : q ≤ qh) :
    ((process_pairings image s blur bt noise ni true q stem).format =
        ImgFormat.JPEG ∧
      (process_pairings image s blur bt noise ni true q stem).mode =
        ColorMode.RGB ∧
      (process_pairings image s blur bt noise ni true q
        stem).mode.hasAlpha = false ∧
      ∃ qq, (process_pairings image s blur bt noise ni true q
          stem).quality = some qq ∧ ql ≤ qq ∧ qq ≤ qh) ∧
    ((process_pairings image s blur bt noise ni false q stem).format =
        ImgFormat.PNG ∧
      (process_pairings image s blur bt noise ni false q stem).mode =
        image.mode ∧
      (process_pairings image s blur bt noise ni false q
        stem).mode.hasAlpha = image.mode.hasAlpha ∧
      (process_pairings image s blur bt noise ni false q stem).quality =
        none) := by
  have hjpeg : (process_pairings image s blur bt noise ni true q stem) =
      ⟨ImgFormat.JPEG, ColorMode.RGB,
        (pyInt ((image.width : ℚ) * s)).toNat,
        (pyInt ((image.height : ℚ) * s)).toNat, some q, stem ++ ".jpg"⟩ := by
    cases blur <;> cases noise <;>
      simp [process_pairings, resize, apply_random_blur_eq,
        add_random_noise, blend, effect_noise, convert] <;>
      rcases h : image.mode <;> simp [h]
  have hpng : (process_pairings image s blur bt noise ni false q stem) =
      ⟨ImgFormat.PNG, image.mode,
        (pyInt ((image.width : ℚ) * s)).toNat,
        (pyInt ((image.height : ℚ) * s)).toNat, none, stem ++ ".png"⟩ := by
    cases blur <;> cases noise <;>
      simp [process_pairings, resize, apply_random_blur_eq,
        add_random_noise, blend, effect_noise, convert]
  rw [hjpeg, hpng]
  exact ⟨⟨rfl, rfl, rfl, q, rfl, hql, hqh⟩, rfl, rfl, rfl, rfl⟩

theorem claim_C9_format_alpha_witness :
    (75 : ℕ) ≤ 80 ∧ (80 : ℕ) ≤ 95 ∧
    (process_pairings ⟨10, 10, ColorMode.RGBA⟩ 1 false BlurType.average
      false 0 true 80 "a").mode.hasAlpha = false ∧
    (process_pairings ⟨10, 10, ColorMode.RGBA⟩ 1 false BlurType.average
      false 0 false 80 "a").mode.hasAlpha = ColorMode.RGBA.hasAlpha := by
  have h := claim_C9_format_alpha ⟨10, 10, ColorMode.RGBA⟩ 1 false
    BlurType.average false 0 "a" 80 75 95 (by decide) (by decide)
  exact ⟨by decide, by decide, h.1.2.2.1, h.2.2.2.1⟩

/-- **C10 counterexample**: running the degradation pipeline with the
output directory equal to the input file's directory and a PNG input
makes the single output write target the very path that was read as
input: the input file `in/a.png` is overwritten (mutated). -/
theorem claim_C10_counterexample :
    FSAction.readFile ["d", "a.png"] ∈
      pairings_effects ["d"] "a" ".png" ["d"] false ∧
    FSAction.writeFile ["d", "a.png"] ∈
      pairings_effects ["d"] "a" ".png" ["d"] false := by
  constructor <;> decide

/-- A grid-tile filename strictly extends `stem ++ ext` (by the separator
`"_"` and the timestamp/index), so it never equals the input filename. -/
lemma tile_grid_name_ne (stem ext t k : String) :
    stem ++ "_" ++ t ++ "_" ++ k ++ ext ≠ stem ++ ext := by
  intro h
  have hl := congrArg String.length h
  simp only [String.length_append] at hl
  have h1 : ("_" : String).length = 1 := rfl
  omega

/-- A fallback-tile filename strictly extends `stem ++ ext` as well. -/
lemma tile_fallback_name_ne (stem ext t : String) :
    stem ++ "_" ++ t ++ ext ≠ stem ++ ext := by
  intro h
  have hl := congrArg String.length h
  simp only [String.length_append] at hl
  have h1 : ("_" : String).length = 1 := rfl
  omega

/-- **C10 (amended)**: each degradation run writes exactly one output file
`<stem>.jpg|png` into the output directory, which it creates (with
parents), and neither tool ever deletes a file — all unconditionally;
whenever the output path differs from the input file's path, no
degradation write touches the input file; and the tiling tool's
timestamped tile names strictly extend the input's name, so it never
writes over its own input at all.  When the output path coincides with
the input path (same directory, same stem and extension) the degradation
write overwrites the input, as the counterexample shows. -/
theorem claim_C10_effects (in_dir : List String) (stem ext : String)
    (out_dir : List String) (sj : Bool) (outc : TileOutcome) (ts : ℕ) :
    ((pairings_effects in_dir stem ext out_dir sj).filter
        (fun a => a.isWrite)) =
      [FSAction.writeFile
        (out_dir ++ [stem ++ (if sj then ".jpg" else ".png")])] ∧
    FSAction.mkdirAll out_dir ∈ pairings_effects in_dir stem ext out_dir sj ∧
    (∀ a ∈ pairings_effects in_dir stem ext out_dir sj,
      a.isDelete = false) ∧
    (∀ a ∈ tiles_effects in_dir stem ext out_dir outc ts,
      a.isDelete = false) ∧
    (out_dir ++ [stem ++ (if sj then ".jpg" else ".png")] ≠
        in_dir ++ [stem ++ ext] →
      ∀ p, FSAction.writeFile p ∈ pairings_effects in_dir stem ext out_dir sj →
        p ≠ in_dir ++ [stem ++ ext]) ∧
    (∀ p, FSAction.writeFile p ∈ tiles_effects in_dir stem ext out_dir outc ts →
      p ≠ in_dir ++ [stem ++ ext]) := by
  refine ⟨by simp [pairings_effects, FSAction.isWrite],
    by simp [pairings_effects], ?_, ?_, ?_, ?_⟩
  · intro a ha
    simp [pairings_effects] at ha
    rcases ha with rfl | rfl | rfl <;> rfl
  · intro a ha
    unfold tiles_effects at ha
    cases outc with
    | gridEmit ts2 =>
      simp only [List.mem_cons, List.mem_map, List.mem_range] at ha
      rcases ha with rfl | rfl | ⟨k, hk, rfl⟩ <;> rfl
    | fallbackEmit t =>
      simp only [List.mem_cons, List.not_mem_nil, or_false] at ha
      rcases ha with rfl | rfl | rfl <;> rfl
    | preReject =>
      simp only [List.mem_cons, List.not_mem_nil, or_false] at ha
      rcases ha with rfl | rfl <;> rfl
    | searchFailure =>
      simp only [List.mem_cons, List.not_mem_nil, or_false] at ha
      rcases ha with rfl | rfl <;> rfl
    | runtimeError =>
      simp only [List.mem_cons, List.not_mem_nil, or_false] at ha
      rcases ha with rfl | rfl <;> rfl
  · intro hne p hp heq
    have hpw : p = out_dir ++ [stem ++ (if sj then ".jpg" else ".png")] := by
      simp [pairings_effects] at hp
      exact hp
    rw [hpw] at heq
    exact hne heq
  · intro p hp heq
    unfold tiles_effects at hp
    cases outc with
    | gridEmit ts2 =>
      simp only [List.mem_cons, List.mem_map, List.mem_range] at hp
      rcases hp with h | h | ⟨k, hk, h⟩
      · exact FSAction.noConfusion h
      · exact FSAction.noConfusion h
      · have hp2 := FSAction.writeFile.inj h
        rw [← hp2] at heq
        have hname : stem ++ "_" ++ toString ts ++ "_" ++ toString k ++ ext =
            stem ++ ext := by
          simpa using List.append_inj_right' heq rfl
        exact tile_grid_name_ne stem ext (toString ts) (toString k) hname
    | fallbackEmit t =>
      simp only [List.mem_cons, List.not_mem_nil, or_false] at hp
      rcases hp with h | h | h
      · exact FSAction.noConfusion h
      · exact FSAction.noConfusion h
      · have hp2 := FSAction.writeFile.inj h
        rw [hp2] at heq
        have hname : stem ++ "_" ++ toString ts ++ ext = stem ++ ext := by
          simpa using List.append_inj_right' heq rfl
        exact tile_fallback_name_ne stem ext (toString ts) hname
    | preReject =>
      simp only [List.mem_cons, List.not_mem_nil, or_false] at hp
      rcases hp with h | h
      · exact FSAction.noConfusion h
      · exact FSAction.noConfusion h
    | searchFailure =>
      simp only [List.mem_cons, List.not_mem_nil, or_false] at hp
      rcases hp with h | h
      · exact FSAction.noConfusion h
      · exact FSAction.noConfusion h
    | runtimeError =>
      simp only [List.mem_cons, List.not_mem_nil, or_false] at hp
      rcases hp with h | h
      · exact FSAction.noConfusion h
      · exact FSAction.noConfusion h

theorem claim_C10_effects_witness :
    (["out"] ++ ["a" ++ ".png"] : List String) ≠ ["in"] ++ ["a" ++ ".png"] ∧
    (∀ p, FSAction.writeFile p ∈
        pairings_effects ["in"] "a" ".png" ["out"] false →
      p ≠ ["in"] ++ ["a" ++ ".png"]) ∧
    (∀ a ∈ pairings_effects ["in"] "a" ".png" ["out"] false,
      a.isDelete = false) := by
  have h := claim_C10_effects ["in"] "a" ".png" ["out"] false
    TileOutcome.preReject 0
  refine ⟨by decide, ?_, h.2.2.1⟩
  exact h.2.2.2.2.1 (by decide)

end ImageUtils
